import Mathlib

/-!
Verification of the statmon daemon core (scheduler and alert engine)
against its specification.  Definitions are shallow embeddings of the
Python source in `statmon_daemon/`; timestamps are modelled as integer
seconds, numeric reading values as rationals.
-/

namespace Statmon

/-! ### Scheduler (`scheduler.py`) -/

/-- One registered job (`Scheduler.add_job` stores `func`, `interval`,
`last_run = 0`).  The callable itself is irrelevant to the scheduling
state; its outcome on a given tick is passed to `tickJob` separately. -/
structure SchedJob where
  interval : Int
  last_run : Int
deriving Repr, DecidableEq

/-- A fresh job as registered by `add_job`: `last_run` starts at epoch zero. -/
def SchedJob.registered (interval : Int) : SchedJob :=
  { interval := interval, last_run := 0 }

/-- The body of `Scheduler.run_pending` for one job.  `now` is sampled once
per tick.  If `now - last_run >= interval` the action is invoked
(`actionResult` is its outcome; an exception is caught by the
`try/except` and only logged) and the `finally` block sets
`last_run = now` whether the action succeeded or raised.  Returns the new
job state and whether the action was invoked. -/
def tickJob (now : Int) (actionResult : Except String Unit) (j : SchedJob) :
    SchedJob × Bool :=
  if j.interval ≤ now - j.last_run then
    match actionResult with
    | Except.ok _ => ({ j with last_run := now }, true)
    | Except.error _ => ({ j with last_run := now }, true)
  else
    (j, false)

/-- `Scheduler.run_pending` over the whole job list: each job is checked
against the same `now`; `results` gives each job's action outcome for
this tick. -/
def runPending (now : Int) (results : List (Except String Unit))
    (jobs : List SchedJob) : List (SchedJob × Bool) :=
  List.zipWith (tickJob now) results jobs

/-! ### Alert engine (`alerting.py`) -/

/-- A SQLite cell value as the Python layer sees it. -/
inductive SqlVal where
  | int (n : Int)
  | real (q : Rat)
  | str (s : String)
  | bool (b : Bool)
  | null
deriving Repr, DecidableEq

/-- `ok_bool = (ok in (1, True, "1"))` in `_consecutive_ping_failures`,
with Python equality inside the tuple membership (`True == 1`,
`1.0 == 1`). -/
def okBool : SqlVal → Bool
  | SqlVal.int n => n = 1
  | SqlVal.real q => q = 1
  | SqlVal.str s => s = "1"
  | SqlVal.bool b => b
  | SqlVal.null => false

/-- The scan loop of `_consecutive_ping_failures`: walk the rows, `break`
at the first successful ping, count the failures passed over. -/
def countLeadingFailures : List SqlVal → Nat
  | [] => 0
  | r :: rs => if okBool r then 0 else countLeadingFailures rs + 1

/-- `AlertManager._consecutive_ping_failures`: the query returns the
`success` column of the station's ping results, most recent first,
limited to `search_window` rows; the loop counts the leading failures. -/
def consecutive_ping_failures (history : List SqlVal) (searchWindow : Nat) : Nat :=
  countLeadingFailures (history.take searchWindow)

/-- Python-dict lookup on an association list (keys kept unique by
`dictSet`). -/
def dictGet {α β : Type} [DecidableEq α] (m : List (α × β)) (k : α) : Option β :=
  match m with
  | [] => none
  | (k', v) :: rest => if k' = k then some v else dictGet rest k

/-- Python-dict assignment `d[k] = v`: replace the value of an existing
key in place, otherwise append the new binding. -/
def dictSet {α β : Type} [DecidableEq α] (k : α) (v : β) :
    List (α × β) → List (α × β)
  | [] => [(k, v)]
  | (k', v') :: rest =>
      if k' = k then (k, v) :: rest else (k', v') :: dictSet k v rest

/-- One row of the `readings` query in `_latest_readings_map` after the
SQL projection: `ts` is the parse of the raw timestamp text (`none` when
missing or unparseable, modelling `_parse_iso` returning `None`), `value`
is `none` when `float(...)` on the raw cell fails.  Timestamps are
modelled as integer seconds. -/
structure ReadingRow where
  station_id : Int
  name : String
  value : Option Rat
  ts : Option Int
deriving Repr, DecidableEq

/-- The loop body of `_latest_readings_map`: skip rows with unparseable
timestamp or value; store the row for its (station, parameter) slot iff
no entry exists yet or the new timestamp is strictly greater
(`ts > prev[1]`). -/
def latestInsert (m : List (Int × List (String × Rat × Int))) (r : ReadingRow) :
    List (Int × List (String × Rat × Int)) :=
  match r.ts, r.value with
  | some ts, some val =>
      let stationMap := (dictGet m r.station_id).getD []
      match dictGet stationMap r.name with
      | none => dictSet r.station_id (dictSet r.name (val, ts) stationMap) m
      | some prev =>
          if prev.2 < ts then
            dictSet r.station_id (dictSet r.name (val, ts) stationMap) m
          else m
  | _, _ => m

/-- `AlertManager._latest_readings_map`: fold the 7-day window of reading
rows (in iteration order) into `{station_id: {param: (value, ts)}}`. -/
def latest_readings_map (rows : List ReadingRow) :
    List (Int × List (String × Rat × Int)) :=
  rows.foldl latestInsert []

/-- `AlertManager._latest_station_timestamp`: `max` of the timestamps of
the station's latest readings, `None` when it has none in the map. -/
def latest_station_timestamp (latestMap : List (Int × List (String × Rat × Int)))
    (station_id : Int) : Option Int :=
  match (dictGet latestMap station_id).getD [] with
  | [] => none
  | p :: ps => some ((ps.map (fun x => x.2.2)).foldl max p.2.2)

/-- The gap test in `run` step 2: raised when no reading exists at all or
the latest one is strictly older than `gap_hours` hours
(`(now - latest_ts) > gap_td`). -/
def gapCondition (now gapHours : Int) (latestTs : Option Int) : Bool :=
  match latestTs with
  | none => true
  | some t => decide (gapHours * 3600 < now - t)

/-- The `gap_str` fragment of the alert body in `run` step 2 (the ISO
rendering of a concrete timestamp is abstracted to its integer form). -/
def gapStr (latestTs : Option Int) : String :=
  match latestTs with
  | none => "no data found"
  | some t => "last at " ++ toString t

/-- The breach test in `run` step 3: below a set minimum or above a set
maximum; an absent bound imposes no constraint on that side. -/
def breach (vmin vmax : Option Rat) (val : Rat) : Bool :=
  (match vmin with
   | some m => decide (val < m)
   | none => false) ||
  (match vmax with
   | some m => decide (m < val)
   | none => false)

/-- A station as the evaluation loop of `run` sees it after the
per-station parsing at the top of the loop (`ping_fail_limit`,
`gap_hours`, parsed `thresholds`). -/
structure Station where
  id : Int
  name : String
  pingFailLimit : Int
  gapHours : Int
  thresholds : List (String × Option Rat × Option Rat)

/-- The `if key not in self._sent_keys: send; add` pattern of `run`:
returns the enlarged key set and the dispatched key, if any. -/
def dedupSend (sent : List String) (key : String) : List String × Option String :=
  if key ∈ sent then (sent, none) else (key :: sent, some key)

/-- The dedup key of `run` step 1: `f"pingfail:{sid}:{cons}"`. -/
def pingFailKey (sid : Int) (cons : Nat) : String :=
  "pingfail:" ++ toString sid ++ ":" ++ toString cons

/-- The raise condition of `run` step 1:
`ping_fail_limit > 0 and cons >= ping_fail_limit`. -/
def pingFailCandidate (limit : Int) (cons : Nat) : Bool :=
  decide (0 < limit) && decide (limit ≤ (cons : Int))

/-- `run` step 1 for one station: raise the failure-streak candidate and
pass it through the dedup guard. -/
def pingStep (sid : Int) (limit : Int) (cons : Nat) (sent : List String) :
    List String × Option String :=
  if pingFailCandidate limit cons then dedupSend sent (pingFailKey sid cons)
  else (sent, none)

/-- `run` step 3 for one station: iterate the threshold rules in order;
rules whose parameter has no latest reading are skipped (`continue`);
breaching readings are dedup-keyed by station, parameter and the
reading's timestamp. -/
def thresholdPass (sid : Int) (params : List (String × Rat × Int))
    (rules : List (String × Option Rat × Option Rat)) (sent : List String) :
    List String × List String :=
  match rules with
  | [] => (sent, [])
  | (pname, vmin, vmax) :: rest =>
      match dictGet params pname with
      | none => thresholdPass sid params rest sent
      | some vt =>
          if breach vmin vmax vt.1 then
            let step := dedupSend sent
              ("thresh:" ++ toString sid ++ ":" ++ pname ++ ":" ++ toString vt.2)
            let next := thresholdPass sid params rest step.1
            (next.1, step.2.toList ++ next.2)
          else thresholdPass sid params rest sent

/-- The body of the `for s in stations` loop of `run` for one station:
the three health checks with their dedup guards, threading the sent-key
set.  `pingHist` is the station's most-recent-first `success` column.
Returns the new key set and the dispatched keys, in dispatch order. -/
def evalStation (now : Int) (latestMap : List (Int × List (String × Rat × Int)))
    (pingHist : List SqlVal) (s : Station) (sent : List String) :
    List String × List String :=
  let window := (max 20 s.pingFailLimit).toNat
  let cons := consecutive_ping_failures pingHist window
  let step1 := pingStep s.id s.pingFailLimit cons sent
  let latestTs := latest_station_timestamp latestMap s.id
  let step2 :=
    if gapCondition now s.gapHours latestTs then
      dedupSend step1.1 ("gap:" ++ toString s.id ++ ":" ++ toString s.gapHours)
    else (step1.1, none)
  let params := (dictGet latestMap s.id).getD []
  let step3 := thresholdPass s.id params s.thresholds step2.1
  (step3.1, step1.2.toList ++ step2.2.toList ++ step3.2)

/-- One full evaluation pass of `AlertManager.run` over the loaded
station list; `pingOf` is the per-station ping-history query. -/
def runPass (now : Int) (latestMap : List (Int × List (String × Rat × Int)))
    (pingOf : Int → List SqlVal) (stations : List Station) (sent : List String) :
    List String × List String :=
  match stations with
  | [] => (sent, [])
  | s :: rest =>
      let step := evalStation now latestMap (pingOf s.id) s sent
      let next := runPass now latestMap pingOf rest step.1
      (next.1, step.2 ++ next.2)

/-- The inputs one call of `run` reads from the store: the clock, the
7-day readings snapshot, the ping histories and the loaded stations. -/
structure PassInput where
  now : Int
  latestMap : List (Int × List (String × Rat × Int))
  pingOf : Int → List SqlVal
  stations : List Station

/-- A daemon lifetime: `_sent_keys` is created once in
`AlertManager.__init__` and threaded through successive `run` calls;
the dispatch log concatenates the passes' dispatches in order. -/
def runPasses (passes : List PassInput) (sent : List String) :
    List String × List String :=
  match passes with
  | [] => (sent, [])
  | p :: rest =>
      let step := runPass p.now p.latestMap p.pingOf p.stations sent
      let next := runPasses rest step.1
      (next.1, step.2 ++ next.2)

/-- The full dispatch log of a daemon lifetime, starting from the empty
key set of `__init__`. -/
def daemonLog (passes : List PassInput) : List String :=
  (runPasses passes []).2

/-- A guard-respecting evaluation step: a function from the sent-key set
to the new set and its dispatch log that (i) never drops a key, (ii)
dispatches no duplicates, (iii) dispatches only keys absent from the
incoming set, and records every dispatched key in the outgoing set. -/
def GuardOk (F : List String → List String × List String) : Prop :=
  ∀ sent : List String,
    (∀ k, k ∈ sent → k ∈ (F sent).1) ∧
    (F sent).2.Nodup ∧
    ∀ k, k ∈ (F sent).2 → k ∉ sent ∧ k ∈ (F sent).1

/-! ### Station loading (`_load_stations`) -/

/-- One row of the `stations` query as `_load_stations` sees it: `id` is
always selected; an optional column is `none` when absent from the
schema, `some SqlVal.null` when present but NULL. -/
structure StationRow where
  id : Int
  name : Option String
  alert_ping_failures : Option SqlVal
  alert_gap_hours : Option SqlVal
  alert_thresholds : Option SqlVal
  enabled : Option SqlVal
deriving Repr, DecidableEq

/-- Python's `r["enabled"] in (0, "0", False)` membership test, with
Python equality inside the tuple (`0 == False`, `0 == 0.0`; `None` and
`1`/`True` match nothing). -/
def enabledDisabled : SqlVal → Bool
  | SqlVal.int n => n = 0
  | SqlVal.real q => q = 0
  | SqlVal.str s => s = "0"
  | SqlVal.bool b => b = false
  | SqlVal.null => false

/-- The skip test of `_load_stations`:
`"enabled" in r and r["enabled"] in (0, "0", False)`. -/
def stationRowDisabled (r : StationRow) : Bool :=
  match r.enabled with
  | some v => enabledDisabled v
  | none => false

/-- `r.get("name") or f"Station {r['id']}"`: a missing or falsy (empty)
name falls back to the synthesized display name. -/
def stationDisplayName (r : StationRow) : String :=
  match r.name with
  | some s => if s = "" then "Station " ++ toString r.id else s
  | none => "Station " ++ toString r.id

/-- The station dict `_load_stations` appends for a kept row. -/
structure LoadedStation where
  id : Int
  name : String
  alert_ping_failures : Option SqlVal
  alert_gap_hours : Option SqlVal
  alert_thresholds : Option SqlVal
deriving Repr, DecidableEq

/-- The per-row projection of `_load_stations`. -/
def loadStation (r : StationRow) : LoadedStation :=
  { id := r.id, name := stationDisplayName r,
    alert_ping_failures := r.alert_ping_failures,
    alert_gap_hours := r.alert_gap_hours,
    alert_thresholds := r.alert_thresholds }

/-- `AlertManager._load_stations`: rows whose `enabled` column is present
and Python-equal to `0`, `"0"` or `False` are skipped; every other row is
projected and kept, in order. -/
def load_stations (rows : List StationRow) : List LoadedStation :=
  match rows with
  | [] => []
  | r :: rest =>
      if stationRowDisabled r then load_stations rest
      else loadStation r :: load_stations rest

/-! ### Notification dispatch (`_send_alert`) -/

/-- Python truthiness of an optional environment string (`None` and `""`
are falsy). -/
def truthyEnv : Option String → Bool
  | none => false
  | some s => decide (s ≠ "")

/-- The sink configuration `_send_alert` reads from the environment at
call time. -/
structure SinkEnv where
  teams_webhook : Option String
  smtp_host : Option String
  smtp_to : Option String
deriving Repr, DecidableEq

/-- `AlertManager._send_alert`: attempt the Teams sink when the webhook
is configured and the email sink when host and recipients are configured;
each attempt's outcome is caught by its own `try/except` and only
recorded, never propagated, so the function always returns the list of
attempted sinks with their outcomes. -/
def send_alert (env : SinkEnv) (teamsOutcome emailOutcome : Except String Unit) :
    List (String × Except String Unit) :=
  (if truthyEnv env.teams_webhook then [("teams", teamsOutcome)] else []) ++
  (if truthyEnv env.smtp_host && truthyEnv env.smtp_to then
    [("email", emailOutcome)]
  else [])

end Statmon

/-! ### Theorems -/

namespace Statmon

/-- The action's outcome never influences the scheduling state: `tickJob`
evaluates to the same update whether the action succeeded or raised
(the `finally` block runs either way). -/
theorem tickJob_eval (now : Int) (r : Except String Unit) (j : SchedJob) :
    tickJob now r j =
      if j.interval ≤ now - j.last_run then ({ j with last_run := now }, true)
      else (j, false) := by
  cases r with
  | ok u => rfl
  | error e => rfl

/-- C1: `run_pending` invokes a job's action iff `now - last_run ≥ interval`
at the moment of the call, and whenever it does, `last_run` is set to `now`,
so on the resulting state no tick at a time `t` with `t - now < interval`
invokes the action again: the action never fires before a full period has
elapsed since the previous execution attempt. -/
theorem c1_tick_fires_iff_period_elapsed
    (now : Int) (r : Except String Unit) (j : SchedJob) :
    ((tickJob now r j).2 = true ↔ j.interval ≤ now - j.last_run) ∧
    ((tickJob now r j).2 = true →
      (tickJob now r j).1.last_run = now ∧
      ∀ (t : Int) (r' : Except String Unit),
        t - now < j.interval → (tickJob t r' (tickJob now r j).1).2 = false) := by
  constructor
  · by_cases h : j.interval ≤ now - j.last_run <;> simp [tickJob_eval, h]
  · intro hfired
    by_cases h : j.interval ≤ now - j.last_run
    · refine ⟨by simp [tickJob_eval, h], ?_⟩
      intro t r' ht
      have h2 : ¬ j.interval ≤ t - now := by omega
      simp [tickJob_eval, h, h2]
    · simp [tickJob_eval, h] at hfired

/-- Witness for C1 at a concrete instance: a job with interval 5 last run
at 10 fires at time 15, its `last_run` becomes 15, and it does not fire
at time 19. -/
theorem c1_witness :
    (tickJob 15 (Except.ok ()) { interval := 5, last_run := 10 }).2 = true ∧
    (tickJob 15 (Except.ok ()) { interval := 5, last_run := 10 }).1.last_run = 15 ∧
    (tickJob 19 (Except.ok ())
      (tickJob 15 (Except.ok ()) { interval := 5, last_run := 10 }).1).2 = false := by
  have h := c1_tick_fires_iff_period_elapsed 15 (Except.ok ())
    { interval := 5, last_run := 10 }
  have hf : (tickJob 15 (Except.ok ()) { interval := 5, last_run := 10 }).2 = true :=
    h.1.mpr (by decide)
  exact ⟨hf, (h.2 hf).1, (h.2 hf).2 19 (Except.ok ()) (by decide)⟩

/-- C2: an exception from the action is caught inside `run_pending` (the
tick's result is the same state as on success — no propagation), `last_run`
is still updated to `now`, and an always-failing job fires again exactly
when one more period has elapsed: on the post-failure state, a tick at
time `t` invokes it iff `t - now ≥ interval`. -/
theorem c2_failure_caught_and_rescheduled
    (now : Int) (e : String) (j : SchedJob) :
    tickJob now (Except.error e) j = tickJob now (Except.ok ()) j ∧
    ((tickJob now (Except.error e) j).2 = true →
      (tickJob now (Except.error e) j).1.last_run = now ∧
      ∀ (t : Int) (e' : String),
        (tickJob t (Except.error e') (tickJob now (Except.error e) j).1).2 = true ↔
          j.interval ≤ t - now) := by
  refine ⟨by rw [tickJob_eval, tickJob_eval], ?_⟩
  intro hfired
  by_cases h : j.interval ≤ now - j.last_run
  · refine ⟨by simp [tickJob_eval, h], ?_⟩
    intro t e'
    by_cases ht : j.interval ≤ t - now <;> simp [tickJob_eval, h, ht]
  · simp [tickJob_eval, h] at hfired

/-- Witness for C2: a failing job due at time 20 (interval 5, last run 10)
has `last_run` updated to 20 and, still failing, fires again at time 25
but not at time 24. -/
theorem c2_witness :
    (tickJob 20 (Except.error "boom") { interval := 5, last_run := 10 }).1.last_run = 20 ∧
    (tickJob 25 (Except.error "boom")
      (tickJob 20 (Except.error "boom") { interval := 5, last_run := 10 }).1).2 = true ∧
    (tickJob 24 (Except.error "boom")
      (tickJob 20 (Except.error "boom") { interval := 5, last_run := 10 }).1).2 = false := by
  have h := c2_failure_caught_and_rescheduled 20 "boom" { interval := 5, last_run := 10 }
  have hfired : (tickJob 20 (Except.error "boom")
      { interval := 5, last_run := 10 }).2 = true := by decide
  refine ⟨(h.2 hfired).1, ((h.2 hfired).2 25 "boom").mpr (by decide), ?_⟩
  by_cases hb : (tickJob 24 (Except.error "boom")
      (tickJob 20 (Except.error "boom") { interval := 5, last_run := 10 }).1).2 = true
  · exact absurd (((h.2 hfired).2 24 "boom").mp hb) (by decide)
  · simpa using hb

/-- The scan loop of `_consecutive_ping_failures` computes the length of
the longest failed prefix of its input. -/
theorem countLeadingFailures_eq (l : List SqlVal) :
    countLeadingFailures l = (l.takeWhile (fun r => !okBool r)).length := by
  induction l with
  | nil => rfl
  | cons r rs ih =>
      by_cases h : okBool r
      · simp [countLeadingFailures, List.takeWhile_cons, h]
      · simp [countLeadingFailures, List.takeWhile_cons, h, ih]

/-- C3: the consecutive-failure count is the number of leading failures
of the most-recent-first history, cut to the `max(20, threshold)` window
and stopped at the first success; the failure-streak candidate is raised
iff the threshold is positive and the count reaches it; on the history
`[fail, fail, fail, success, fail]` the count is 3, raised at threshold 3
and not at threshold 5. -/
theorem c3_failure_streak (history : List SqlVal) (limit : Int) :
    consecutive_ping_failures history (max 20 limit).toNat
      = ((history.take (max 20 limit).toNat).takeWhile (fun r => !okBool r)).length ∧
    (∀ cons : Nat, pingFailCandidate limit cons = true ↔
        0 < limit ∧ limit ≤ (cons : Int)) ∧
    (consecutive_ping_failures
        [SqlVal.int 0, SqlVal.int 0, SqlVal.int 0, SqlVal.int 1, SqlVal.int 0]
        (max 20 (3 : Int)).toNat = 3 ∧
      pingFailCandidate 3 3 = true ∧ pingFailCandidate 5 3 = false) := by
  refine ⟨countLeadingFailures_eq _, ?_, by decide⟩
  intro cons
  simp [pingFailCandidate]

/-- Witness for C3: the documented history evaluates to a streak of 3 and
a raised candidate at threshold 3. -/
theorem c3_witness :
    pingFailCandidate 3
      (consecutive_ping_failures
        [SqlVal.int 0, SqlVal.int 0, SqlVal.int 0, SqlVal.int 1, SqlVal.int 0]
        (max 20 (3 : Int)).toNat) = true := by
  have h := (c3_failure_streak
    [SqlVal.int 0, SqlVal.int 0, SqlVal.int 0, SqlVal.int 1, SqlVal.int 0] 3).2.2
  rw [h.1]
  exact h.2.1

/-- `List.foldl max` bounds its seed and all elements, and returns one of
them. -/
theorem foldl_max_spec (l : List Int) (a : Int) :
    a ≤ l.foldl max a ∧ (∀ x ∈ l, x ≤ l.foldl max a) ∧
      (l.foldl max a = a ∨ l.foldl max a ∈ l) := by
  induction l generalizing a with
  | nil => simp
  | cons b bs ih =>
      simp only [List.foldl_cons]
      refine ⟨le_trans (le_max_left a b) (ih (max a b)).1, ?_, ?_⟩
      · intro x hx
        rcases List.mem_cons.mp hx with rfl | hx
        · exact le_trans (le_max_right a x) (ih (max a x)).1
        · exact (ih (max a b)).2.1 x hx
      · rcases (ih (max a b)).2.2 with h | h
        · rcases max_choice a b with hm | hm
          · left; rw [h, hm]
          · right; rw [h, hm]; exact List.mem_cons_self b bs
        · right; exact List.mem_cons_of_mem b h

/-- `_latest_station_timestamp` returns `none` exactly when the station
has no latest readings, and otherwise the greatest timestamp among them
(attained by one of them). -/
theorem latest_station_timestamp_spec
    (m : List (Int × List (String × Rat × Int))) (sid : Int) :
    (latest_station_timestamp m sid = none ↔ (dictGet m sid).getD [] = []) ∧
    (∀ t, latest_station_timestamp m sid = some t →
       (∃ x ∈ (dictGet m sid).getD [], x.2.2 = t) ∧
       ∀ x ∈ (dictGet m sid).getD [], x.2.2 ≤ t) := by
  unfold latest_station_timestamp
  cases hp : (dictGet m sid).getD [] with
  | nil => simp
  | cons p ps =>
      refine ⟨by simp, ?_⟩
      intro t ht
      have hfold := foldl_max_spec (ps.map (fun x => x.2.2)) p.2.2
      have ht' : (ps.map (fun x => x.2.2)).foldl max p.2.2 = t :=
        Option.some.inj ht
      constructor
      · rcases hfold.2.2 with h | h
        · exact ⟨p, List.mem_cons_self p ps, by rw [← ht', h]⟩
        · rcases List.mem_map.mp h with ⟨x, hx, hxt⟩
          exact ⟨x, List.mem_cons_of_mem p hx, by rw [← ht', hxt]⟩
      · intro x hx
        rcases List.mem_cons.mp hx with rfl | hx
        · rw [← ht']; exact hfold.1
        · rw [← ht']
          exact hfold.2.1 x.2.2 (List.mem_map_of_mem (fun y => y.2.2) hx)

/-- C4: the gap candidate is raised iff the station has no latest reading
at all or its most recent timestamp (the maximum across all parameters)
is strictly older than the gap threshold; a reading one second older than
the threshold raises, one second younger does not, and the no-data case
reports "no data found". -/
theorem c4_gap_freshness (now gapHours : Int)
    (m : List (Int × List (String × Rat × Int))) (sid : Int) :
    (gapCondition now gapHours (latest_station_timestamp m sid) = true ↔
       latest_station_timestamp m sid = none ∨
       ∃ t, latest_station_timestamp m sid = some t ∧ gapHours * 3600 < now - t) ∧
    (∀ t, latest_station_timestamp m sid = some t →
       (∃ x ∈ (dictGet m sid).getD [], x.2.2 = t) ∧
       ∀ x ∈ (dictGet m sid).getD [], x.2.2 ≤ t) ∧
    gapStr none = "no data found" ∧
    gapCondition now gapHours (some (now - (gapHours * 3600 + 1))) = true ∧
    gapCondition now gapHours (some (now - (gapHours * 3600 - 1))) = false := by
  refine ⟨?_, (latest_station_timestamp_spec m sid).2, rfl, ?_, ?_⟩
  · cases h : latest_station_timestamp m sid with
    | none => simp [gapCondition]
    | some t => simp [gapCondition]
  · simp only [gapCondition, decide_eq_true_eq]
    omega
  · simp only [gapCondition, decide_eq_false_iff_not, not_lt]
    omega

/-- Witness for C4: at `now = 1000` and a 6-hour threshold, a station
whose only reading is 21601 seconds old raises the gap candidate. -/
theorem c4_witness :
    gapCondition 1000 6 (some (1000 - (6 * 3600 + 1))) = true :=
  (c4_gap_freshness 1000 6 [] 0).2.2.2.1

/-- C5: a threshold rule flags a breach iff the latest value is below a
set minimum or above a set maximum, an absent bound constraining nothing;
rules whose parameter has no latest reading are skipped; `[11.5, 14.5]`
flags 11.0 but not 12.0, and `[None, 10.0]` flags 15.0. -/
theorem c5_threshold_breach (sid : Int) (params : List (String × Rat × Int))
    (pname : String) (vmin vmax : Option Rat)
    (rest : List (String × Option Rat × Option Rat)) (sent : List String) :
    (∀ (mn mx : Option Rat) (val : Rat),
       breach mn mx val = true ↔
         (∃ m, mn = some m ∧ val < m) ∨ (∃ m, mx = some m ∧ m < val)) ∧
    (dictGet params pname = none →
       thresholdPass sid params ((pname, vmin, vmax) :: rest) sent
         = thresholdPass sid params rest sent) ∧
    (breach (some 11.5) (some 14.5) 11 = true ∧
     breach (some 11.5) (some 14.5) 12 = false ∧
     breach none (some 10) 15 = true) := by
  refine ⟨?_, ?_, by norm_num [breach]⟩
  · intro mn mx val
    cases mn <;> cases mx <;> simp [breach]
  · intro h
    simp [thresholdPass, h]

/-- Witness for C5: a rule on a parameter with no latest reading
dispatches nothing (the pass over that single rule is the empty pass). -/
theorem c5_witness :
    thresholdPass 1 [] [("Battery", some 11.5, some 14.5)] []
      = thresholdPass 1 [] [] [] :=
  (c5_threshold_breach 1 [] "Battery" (some 11.5) (some 14.5) [] []).2.1 rfl

/-- C6 counterexample: two readings for the same station and parameter
with exactly equal timestamps, read in order, leave the FIRST one in the
map — the claimed "last one read wins" fails on this input (the retained
value is 1, the last-read value is 2). -/
theorem c6_counterexample :
    dictGet ((dictGet (latest_readings_map
        [⟨1, "p", some 1, some 100⟩, ⟨1, "p", some 2, some 100⟩]) 1).getD []) "p"
      = some (1, 100) ∧
    some ((1 : Rat), (100 : Int)) ≠ some ((2 : Rat), (100 : Int)) := by
  constructor
  · rfl
  · decide

/-- C6 (amended): when a later-read reading carries a timestamp exactly
equal to the one already stored for its station and parameter, the map is
left unchanged — the tie-break is deterministic with the FIRST one read
winning. -/
theorem c6_tie_first_read_wins (m : List (Int × List (String × Rat × Int)))
    (r : ReadingRow) (ts : Int) (v' : Rat)
    (hts : r.ts = some ts)
    (hprev : dictGet ((dictGet m r.station_id).getD []) r.name = some (v', ts)) :
    latestInsert m r = m := by
  cases hv : r.value with
  | none => simp [latestInsert, hts, hv]
  | some val => simp [latestInsert, hts, hv, hprev]

/-- Witness for C6 (amended): inserting a second reading with an equal
timestamp into a one-entry map leaves the map unchanged. -/
theorem c6_witness :
    latestInsert [(1, [("p", ((1 : Rat), (100 : Int)))])] ⟨1, "p", some 2, some 100⟩
      = [(1, [("p", ((1 : Rat), (100 : Int)))])] :=
  c6_tie_first_read_wins _ _ 100 1 rfl rfl

/-- C7: the failure-streak dedup key is built from the station id and the
count, so a second identical evaluation of the ping section dispatches
nothing, a dispatch happens exactly on a raised candidate whose key is
new, and a streak growing from 3 to 4 dispatches a second, distinct
key. -/
theorem c7_streak_dedup (sid limit : Int) (cons : Nat) (sent : List String) :
    (pingStep sid limit cons (pingStep sid limit cons sent).1).2 = none ∧
    ((pingStep sid limit cons sent).2 = some (pingFailKey sid cons) ↔
        pingFailCandidate limit cons = true ∧ pingFailKey sid cons ∉ sent) ∧
    ((pingStep 7 3 3 []).2 = some (pingFailKey 7 3) ∧
     (pingStep 7 3 4 (pingStep 7 3 3 []).1).2 = some (pingFailKey 7 4) ∧
     pingFailKey 7 3 ≠ pingFailKey 7 4) := by
  refine ⟨?_, ?_, by decide⟩
  · by_cases hc : pingFailCandidate limit cons = true
    · by_cases hm : pingFailKey sid cons ∈ sent
      · simp [pingStep, dedupSend, hc, hm]
      · simp [pingStep, dedupSend, hc, hm]
    · simp [pingStep, hc]
  · by_cases hc : pingFailCandidate limit cons = true
    · by_cases hm : pingFailKey sid cons ∈ sent
      · simp [pingStep, dedupSend, hc, hm]
      · simp [pingStep, dedupSend, hc, hm]
    · simp [pingStep, hc]

/-- Witness for C7: on station 7 with threshold 3, the first pass at
streak 3 dispatches, the identical second pass dispatches nothing. -/
theorem c7_witness :
    (pingStep 7 3 3 (pingStep 7 3 3 []).1).2 = none :=
  (c7_streak_dedup 7 3 3 []).1

/-- The dedup primitive is guard-respecting: it only ever adds the probed
key, and dispatches it only when it was absent. -/
theorem guardOk_dedupSend (key : String) :
    GuardOk (fun sent => ((dedupSend sent key).1, (dedupSend sent key).2.toList)) := by
  intro sent
  by_cases h : key ∈ sent
  · simp [dedupSend, h]
  · refine ⟨?_, ?_, ?_⟩
    · intro k hk
      simp [dedupSend, h]
      exact Or.inr hk
    · simp [dedupSend, h]
    · intro k hk
      simp [dedupSend, h] at hk
      subst hk
      simp [dedupSend, h]

/-- Sequencing two guard-respecting steps (thread the key set, append the
logs) is guard-respecting. -/
theorem guardOk_comp (F G : List String → List String × List String)
    (hF : GuardOk F) (hG : GuardOk G) :
    GuardOk (fun sent => ((G (F sent).1).1, (F sent).2 ++ (G (F sent).1).2)) := by
  intro sent
  obtain ⟨hF1, hF2, hF3⟩ := hF sent
  obtain ⟨hG1, hG2, hG3⟩ := hG (F sent).1
  refine ⟨?_, ?_, ?_⟩
  · intro k hk
    exact hG1 k (hF1 k hk)
  · rw [List.nodup_append]
    exact ⟨hF2, hG2, fun k hkF hkG => (hG3 k hkG).1 ((hF3 k hkF).2)⟩
  · intro k hk
    rcases List.mem_append.mp hk with hk | hk
    · exact ⟨(hF3 k hk).1, hG1 k (hF3 k hk).2⟩
    · exact ⟨fun hks => (hG3 k hk).1 (hF1 k hks), (hG3 k hk).2⟩

/-- A conditional dedup step (the gap section's shape) is
guard-respecting. -/
theorem guardOk_condDedup (c : Bool) (key : String) :
    GuardOk (fun sent =>
      ((if c then dedupSend sent key else (sent, none)).1,
       (if c then dedupSend sent key else (sent, none)).2.toList)) := by
  cases c
  · intro sent
    simp
  · intro sent
    simpa using guardOk_dedupSend key sent

/-- The ping section of `run` is guard-respecting. -/
theorem guardOk_pingStep (sid limit : Int) (cons : Nat) :
    GuardOk (fun sent =>
      ((pingStep sid limit cons sent).1, (pingStep sid limit cons sent).2.toList)) := by
  by_cases hc : pingFailCandidate limit cons = true
  · intro sent
    simpa [pingStep, hc] using guardOk_dedupSend (pingFailKey sid cons) sent
  · intro sent
    simp [pingStep, hc]

/-- The threshold section of `run` is guard-respecting. -/
theorem guardOk_thresholdPass (sid : Int) (params : List (String × Rat × Int))
    (rules : List (String × Option Rat × Option Rat)) :
    GuardOk (thresholdPass sid params rules) := by
  induction rules with
  | nil =>
      intro sent
      simp [thresholdPass]
  | cons rule rest ih =>
      obtain ⟨pname, vmin, vmax⟩ := rule
      cases hp : dictGet params pname with
      | none =>
          intro sent
          simpa [thresholdPass, hp] using ih sent
      | some vt =>
          by_cases hb : breach vmin vmax vt.1 = true
          · have hcomp := guardOk_comp
              (fun sent =>
                ((dedupSend sent
                    ("thresh:" ++ toString sid ++ ":" ++ pname ++ ":" ++ toString vt.2)).1,
                 (dedupSend sent
                    ("thresh:" ++ toString sid ++ ":" ++ pname ++ ":" ++ toString vt.2)).2.toList))
              (thresholdPass sid params rest)
              (guardOk_dedupSend _) ih
            intro sent
            simpa [thresholdPass, hp, hb] using hcomp sent
          · intro sent
            simpa [thresholdPass, hp, hb] using ih sent

/-- The whole per-station body of `run` is guard-respecting. -/
theorem guardOk_evalStation (now : Int)
    (latestMap : List (Int × List (String × Rat × Int)))
    (pingHist : List SqlVal) (s : Station) :
    GuardOk (evalStation now latestMap pingHist s) := by
  have h12 := guardOk_comp _ _
    (guardOk_pingStep s.id s.pingFailLimit
      (consecutive_ping_failures pingHist (max 20 s.pingFailLimit).toNat))
    (guardOk_condDedup
      (gapCondition now s.gapHours (latest_station_timestamp latestMap s.id))
      ("gap:" ++ toString s.id ++ ":" ++ toString s.gapHours))
  have h123 := guardOk_comp _ _ h12
    (guardOk_thresholdPass s.id ((dictGet latestMap s.id).getD []) s.thresholds)
  intro sent
  simpa [evalStation, List.append_assoc] using h123 sent

/-- One full `run` pass is guard-respecting. -/
theorem guardOk_runPass (now : Int)
    (latestMap : List (Int × List (String × Rat × Int)))
    (pingOf : Int → List SqlVal) (stations : List Station) :
    GuardOk (runPass now latestMap pingOf stations) := by
  induction stations with
  | nil =>
      intro sent
      simp [runPass]
  | cons s rest ih =>
      have := guardOk_comp _ _ (guardOk_evalStation now latestMap (pingOf s.id) s) ih
      intro sent
      simpa [runPass] using this sent

/-- A whole daemon lifetime of `run` passes is guard-respecting. -/
theorem guardOk_runPasses (passes : List PassInput) :
    GuardOk (runPasses passes) := by
  induction passes with
  | nil =>
      intro sent
      simp [runPasses]
  | cons p rest ih =>
      have := guardOk_comp _ _
        (guardOk_runPass p.now p.latestMap p.pingOf p.stations) ih
      intro sent
      simpa [runPasses] using this sent

/-- C8: across any sequence of evaluation passes, the sent-key set only
grows, every dispatched key was absent from the set before its pass began
and is recorded afterwards, and over the life of the process (starting
from the empty set of `__init__`) no dedup key is ever dispatched more
than once, across all three alert kinds. -/
theorem c8_dedup_guard_invariant (passes : List PassInput) (sent : List String) :
    (∀ k, k ∈ sent → k ∈ (runPasses passes sent).1) ∧
    (runPasses passes sent).2.Nodup ∧
    (∀ k, k ∈ (runPasses passes sent).2 →
       k ∉ sent ∧ k ∈ (runPasses passes sent).1) ∧
    (daemonLog passes).Nodup := by
  obtain ⟨h1, h2, h3⟩ := guardOk_runPasses passes sent
  exact ⟨h1, h2, h3, (guardOk_runPasses passes []).2.1⟩

/-- Witness for C8: a key already in the set survives a pass over one
station that raises a gap alert. -/
theorem c8_witness :
    "old:key" ∈ (runPasses
      [⟨0, [], fun _ => [], [Station.mk 1 "s1" 3 6 []]⟩] ["old:key"]).1 :=
  (c8_dedup_guard_invariant
    [⟨0, [], fun _ => [], [Station.mk 1 "s1" 3 6 []]⟩] ["old:key"]).1
    "old:key" (by decide)

/-- C9: which sinks `_send_alert` attempts depends only on the
configuration, never on any sink's outcome — a raising Teams webhook does
not stop the email sink from being attempted with the same alert in the
same call, no failure propagates (the function totally returns its
attempt list), and the dedup guard records the key the moment dispatch is
attempted, regardless of outcomes. -/
theorem c9_sink_isolation (env : SinkEnv) (t1 t2 e1 e2 : Except String Unit) :
    ((send_alert env t1 e1).map Prod.fst = (send_alert env t2 e2).map Prod.fst) ∧
    ("email" ∈ (send_alert env t1 e1).map Prod.fst ↔
       truthyEnv env.smtp_host = true ∧ truthyEnv env.smtp_to = true) ∧
    ("teams" ∈ (send_alert env t1 e1).map Prod.fst ↔
       truthyEnv env.teams_webhook = true) ∧
    (∀ (sent : List String) (key : String), key ∈ (dedupSend sent key).1) := by
  refine ⟨?_, ?_, ?_, ?_⟩
  · by_cases hw : truthyEnv env.teams_webhook = true <;>
      by_cases hh : truthyEnv env.smtp_host = true <;>
      by_cases ht : truthyEnv env.smtp_to = true <;>
      simp [send_alert, hw, hh, ht]
  · by_cases hw : truthyEnv env.teams_webhook = true <;>
      by_cases hh : truthyEnv env.smtp_host = true <;>
      by_cases ht : truthyEnv env.smtp_to = true <;>
      simp [send_alert, hw, hh, ht]
  · by_cases hw : truthyEnv env.teams_webhook = true <;>
      by_cases hh : truthyEnv env.smtp_host = true <;>
      by_cases ht : truthyEnv env.smtp_to = true <;>
      simp [send_alert, hw, hh, ht]
  · intro sent key
    by_cases h : key ∈ sent <;> simp [dedupSend, h]

/-- Witness for C9: with a configured webhook that raises and a
configured SMTP sink, the email sink is still attempted in the same
call. -/
theorem c9_witness :
    "email" ∈ (send_alert ⟨some "https://hook", some "mail.example", some "ops@example"⟩
      (Except.error "webhook down") (Except.ok ())).map Prod.fst :=
  (c9_sink_isolation ⟨some "https://hook", some "mail.example", some "ops@example"⟩
    (Except.error "webhook down") (Except.ok ()) (Except.ok ()) (Except.ok ())).2.1.mpr
    (by decide)

/-- C10: `_load_stations` keeps exactly the rows whose `enabled` column
is absent or not Python-equal to `0`, `"0"` or `False`; a disabled row is
dropped from the loaded list and therefore contributes nothing to an
evaluation pass; `0`, `"0"` and `False` disable, while an absent column,
`NULL` and `1` do not. -/
theorem c10_disabled_stations (rows : List StationRow) :
    load_stations rows
        = (rows.filter (fun r => !stationRowDisabled r)).map loadStation ∧
    (∀ (r : StationRow) (rest : List StationRow), stationRowDisabled r = true →
        load_stations (r :: rest) = load_stations rest) ∧
    (∀ (f : LoadedStation → Station) (now : Int)
        (m : List (Int × List (String × Rat × Int))) (pingOf : Int → List SqlVal)
        (sent : List String) (r : StationRow) (rest : List StationRow),
        stationRowDisabled r = true →
        runPass now m pingOf ((load_stations (r :: rest)).map f) sent
          = runPass now m pingOf ((load_stations rest).map f) sent) ∧
    (stationRowDisabled ⟨1, none, none, none, none, some (SqlVal.int 0)⟩ = true ∧
     stationRowDisabled ⟨1, none, none, none, none, some (SqlVal.str "0")⟩ = true ∧
     stationRowDisabled ⟨1, none, none, none, none, some (SqlVal.bool false)⟩ = true ∧
     stationRowDisabled ⟨1, none, none, none, none, none⟩ = false ∧
     stationRowDisabled ⟨1, none, none, none, none, some SqlVal.null⟩ = false ∧
     stationRowDisabled ⟨1, none, none, none, none, some (SqlVal.int 1)⟩ = false) := by
  refine ⟨?_, ?_, ?_, by decide⟩
  · induction rows with
    | nil => rfl
    | cons r rest ih =>
        by_cases h : stationRowDisabled r = true <;>
          simp [load_stations, h, ih, List.filter_cons]
  · intro r rest h
    simp [load_stations, h]
  · intro f now m pingOf sent r rest h
    rw [show load_stations (r :: rest) = load_stations rest from by
      simp [load_stations, h]]

/-- Witness for C10: a row disabled with `enabled = 0` loads to the same
station list as no row at all. -/
theorem c10_witness :
    load_stations [⟨1, none, none, none, none, some (SqlVal.int 0)⟩]
      = load_stations [] :=
  (c10_disabled_stations []).2.1 ⟨1, none, none, none, none, some (SqlVal.int 0)⟩ []
    (by decide)

end Statmon
